import Mathlib

/-!
Shallow embedding of the gorun on-disk build cache (package `cache`).

Modelling conventions:
* Go strings are modelled as `List Char`; lengths are character counts.
* Filesystem paths handed to `filepath.Base` / `filepath.Dir` are modelled as
  `List String` of path components of a clean absolute path (`[]` is `/`).
* Wall-clock time is in nanoseconds; `time.Duration` values are `Nat`
  nanoseconds (all durations in the claims are non-negative, and Go's
  truncating `int64` division on positive values agrees with `Nat` division).
* Fallible filesystem primitives (open/read/write/remove) are parameters of
  the model: each call site takes the outcome the OS would have produced.
* Destructive filesystem operations are reified as an `FsAction` trace.
-/

namespace GorunCache

/-- Character predicate of Go `unicode.IsSpace` (the Unicode White_Space
property, which is what `strings.Fields` splits on). -/
def isSpaceGo (c : Char) : Bool :=
  let n := c.toNat
  n == 9 || n == 10 || n == 11 || n == 12 || n == 13 || n == 32 ||
  n == 0x85 || n == 0xA0 || n == 0x1680 ||
  (0x2000 ≤ n && n ≤ 0x200A) || n == 0x2028 || n == 0x2029 ||
  n == 0x202F || n == 0x205F || n == 0x3000

/-- Decimal digit characters, as in `strconv` parsing with base 10. -/
def isDigitChar (c : Char) : Bool :=
  48 ≤ c.toNat && c.toNat ≤ 57

/-- The decimal digit character for a value below ten (`fmt` `%d` digits). -/
def digitChar : Nat → Char
  | 0 => '0' | 1 => '1' | 2 => '2' | 3 => '3' | 4 => '4'
  | 5 => '5' | 6 => '6' | 7 => '7' | 8 => '8' | 9 => '9'
  | _ => '*'

/-- Numeric value of a decimal digit character. -/
def digitVal (c : Char) : Nat := c.toNat - 48

/-- Decimal digits of `n`, most significant first, as printed by `fmt` `%d`
for a non-negative integer. -/
def natToDigits (n : Nat) : List Char :=
  if h : n < 10 then [digitChar n]
  else natToDigits (n / 10) ++ [digitChar (n % 10)]
  termination_by n
  decreasing_by
    exact Nat.div_lt_self (by omega) (by omega)

/-- Rendering of a Go integer by `fmt` `%d`: optional minus sign followed by
decimal digits. -/
def intToChars (i : Int) : List Char :=
  if i < 0 then '-' :: natToDigits i.natAbs else natToDigits i.natAbs

/-- Value of a list of decimal digit characters, most significant first. -/
def digitsVal (l : List Char) : Nat :=
  l.foldl (fun a c => 10 * a + digitVal c) 0

/-- Go `strconv.ParseInt(s, 10, 64)` (and `strconv.Atoi` on a 64-bit
platform): optional sign, at least one decimal digit, no other characters,
value within the signed 64-bit range; `none` models a returned error. -/
def parseInt64 (l : List Char) : Option Int :=
  match l with
  | [] => none
  | c :: rest =>
    let neg := c == '-'
    let ds := if c == '-' || c == '+' then rest else l
    if ds.isEmpty then none
    else if ds.all isDigitChar then
      let n := digitsVal ds
      if neg then
        if n ≤ 2 ^ 63 then some (-(n : Int)) else none
      else
        if n ≤ 2 ^ 63 - 1 then some (n : Int) else none
    else none

/-! Go `strings.Fields`: the maximal runs of non-whitespace characters. -/

/-- Accumulator worker for `fields`; `acc` holds the current word reversed. -/
def fieldsAux : List Char → List Char → List (List Char)
  | acc, [] => if acc.isEmpty then [] else [acc.reverse]
  | acc, c :: cs =>
    if isSpaceGo c then
      if acc.isEmpty then fieldsAux [] cs else acc.reverse :: fieldsAux [] cs
    else fieldsAux (c :: acc) cs

/-- Go `strings.Fields(s)`: split `s` around runs of `unicode.IsSpace`
characters; empty fields are not produced. -/
def fields (l : List Char) : List (List Char) := fieldsAux [] l

/-- Go `strings.Index(s, "\n")` followed by `s[0:k]`: the prefix of `s`
before its first newline, or `none` when `s` has no newline. -/
def takeBeforeNewline : List Char → Option (List Char)
  | [] => none
  | c :: cs =>
    if c = '\n' then some [] else (takeBeforeNewline cs).map (c :: ·)

/-- The per-item metadata record stored in the `info` file
(`cache.Item`): object-directory path and the split timestamp of the last
refresh (`time.Unix` seconds and the nanosecond part). -/
structure Item where
  objdir : List Char
  refreshTime : Int
  refreshTimeNano : Int
deriving DecidableEq, Repr

/-- Rendering of a record by `cache.item2str`:
`fmt.Sprintf("%s %d %d\n", objdir, refreshTime, refreshTimeNano)`. -/
def item2str (obj : Item) : List Char :=
  obj.objdir ++ ' ' :: intToChars obj.refreshTime ++
    ' ' :: intToChars obj.refreshTimeNano ++ ['\n']

/-- Parsing of a record by `cache.str2item`: take the part before the first
newline (content after it is allowed and ignored), split into whitespace
fields, require exactly three, parse the two integers. Errors carry the
`fmt.Errorf` message head. -/
def str2item (s : List Char) : Except String Item :=
  match takeBeforeNewline s with
  | none => Except.error "parse, missing newline"
  | some line =>
    match fields line with
    | [e0, e1, e2] =>
      match parseInt64 e1 with
      | none => Except.error "parse int failed: seconds"
      | some i =>
        match parseInt64 e2 with
        | none => Except.error "parse int failed: nanoseconds"
        | some j => Except.ok ⟨e0, i, j⟩
    | _ => Except.error "parse, not three fields"

/-! Paths and the safe-delete guard (`cache/delete.go`). -/

/-- A clean absolute filesystem path, as its list of components
(the root `/` is `[]`). -/
abbrev Path := List String

/-- Go `filepath.Base` on a clean absolute path: the last component, or
`"/"` for the root. -/
def goBase (p : Path) : String := p.getLast?.getD "/"

/-- Go `filepath.Dir` on a clean absolute path: all but the last component
(the root is its own parent). -/
def goDir (p : Path) : Path := p.dropLast

/-- Character class `[a-z0-9]` of the two guard regexes in `cache.Config`. -/
def isLowerAlnum (c : Char) : Bool :=
  (97 ≤ c.toNat && c.toNat ≤ 122) || (48 ≤ c.toNat && c.toNat ≤ 57)

/-- Match of `config.re1`, the partition-directory regex
`^[a-z0-9]{2}-t$`. -/
def re1Match (s : String) : Bool :=
  match s.toList with
  | [a, b, c, d] => isLowerAlnum a && isLowerAlnum b && c == '-' && d == 't'
  | _ => false

/-- Match of `config.re2`, the item-directory regex `^[a-z0-9]{40}$`. -/
def re2Match (s : String) : Bool :=
  s.toList.length == 40 && s.toList.all isLowerAlnum

/-- Guard decision of `Config.safeRemoveAll`: pick the candidate item
directory `d2` (`objdir` itself, or its parent when the final component has
exactly 8 characters), let `d1` be the parent of `d2`, and require
`re1Match (goBase d1) && re2Match (goBase d2)`; here the two branches of
the source's `d2` selection are written out. -/
def safeRemoveAllowed (objdir : Path) : Bool :=
  if (goBase objdir).length == 8 then
    re1Match (goBase (goDir (goDir objdir))) && re2Match (goBase (goDir objdir))
  else
    re1Match (goBase (goDir objdir)) && re2Match (goBase objdir)

/-- A destructive filesystem operation performed by the cache. -/
inductive FsAction where
  | removeFile (p : Path)
  | removeAll (p : Path)
deriving DecidableEq, Repr

/-- Model of `Config.safeRemoveAll`: recursively delete `objdir` when the guard
allows it, otherwise return the `removeAll: bad objdir` error and delete
nothing. The result is the list of destructive actions performed and the
returned error. -/
def safeRemoveAll (objdir : Path) : List FsAction × Option String :=
  if safeRemoveAllowed objdir then ([FsAction.removeAll objdir], none)
  else ([], some "removeAll: bad objdir")

/-- Model of `Config.safeRemoveAll2`: first `os.Remove` the datafile (success and
`ErrNotExist` both proceed; a hard removal failure is not modelled), then
`safeRemoveAll` the object directory. -/
def safeRemoveAll2 (datafile objdir : Path) : List FsAction × Option String :=
  let r := safeRemoveAll objdir
  (FsAction.removeFile datafile :: r.1, r.2)

/-! Time, age and refresh (`cache.Item.refresh` / `cache.Item.age`). -/

/-- Nanoseconds per second (`time.Second`). -/
def nsPerSec : Nat := 1000000000

/-- The instant recorded in a record, in nanoseconds since the epoch
(`time.Unix(refreshTime, refreshTimeNano)`). -/
def itemTimeNs (obj : Item) : Int :=
  obj.refreshTime * (nsPerSec : Int) + obj.refreshTimeNano

/-- Model of `Item.age`: `time.Since(t2).Abs()`, the absolute distance from the
current instant `now` (nanoseconds since the epoch) to the record's
instant. -/
def ageNs (now : Nat) (obj : Item) : Nat := ((now : Int) - itemTimeNs obj).natAbs

/-- Model of `Item.refresh` at instant `now`: store `t.Unix()` seconds and
`t.Nanosecond()`. -/
def refreshItem (now : Nat) (objdir : List Char) : Item :=
  ⟨objdir, ((now / nsPerSec : Nat) : Int), ((now % nsPerSec : Nat) : Int)⟩

/-- Outcome of an `os.ReadFile` call. -/
inductive ReadResult where
  | notExist
  | readError (e : String)
  | content (s : List Char)
deriving DecidableEq, Repr

/-- Model of `cache.lockfile2datafile`: the `info` file next to a lockfile. -/
def lockfile2datafile (lockfile : Path) : Path := goDir lockfile ++ ["info"]

/-! Trim engine (`cache/delete.go`). -/

/-- Model of `Config.DeleteHash`, the per-item trim step: read the item's `info`
(`read` is the outcome); if absent, remove the whole item directory under
the guard; on a read error or a parse error, return it and delete nothing;
if the record is older than `maxAge`, remove the `info` file first and then
the item directory under the guard; otherwise do nothing. -/
def DeleteHash (maxAge now : Nat) (lockfile : Path) (read : ReadResult) :
    List FsAction × Option String :=
  match read with
  | ReadResult.notExist => safeRemoveAll (goDir lockfile)
  | ReadResult.readError e => ([], some e)
  | ReadResult.content buf =>
    match str2item buf with
    | Except.error e => ([], some e)
    | Except.ok obj =>
      if ageNs now obj > maxAge then
        let r := safeRemoveAll (goDir lockfile)
        (FsAction.removeFile (lockfile2datafile lockfile) :: r.1, r.2)
      else ([], none)

/-- Model of `Config.trimPending`: read `trim.txt` (no lock); any read or parse
error yields `true`, otherwise trim is pending when the stored record is
older than `maxAge/10`. -/
def trimPending (maxAge now : Nat) (read : ReadResult) : Bool :=
  match read with
  | ReadResult.content buf =>
    match str2item buf with
    | Except.error _ => true
    | Except.ok item => ageNs now item > maxAge / 10
  | _ => true

/-- Body of `Config.updateTrimRefreshTime`, run under the exclusive trim
lock: re-check `trimPending` when asked (a concurrent process may have
already refreshed), otherwise write a fresh `/gorun/trim` record to
`trim.txt` (`writeOk` is the `os.WriteFile` outcome). Returns
(`updated`, error). -/
def updateTrimRefreshTime (maxAge : Nat) (checkIfRefreshNeeded : Bool)
    (nowUnderLock : Nat) (readUnderLock : ReadResult) (writeOk : Bool) :
    Bool × Option String :=
  if checkIfRefreshNeeded && !trimPending maxAge nowUnderLock readUnderLock then
    (false, none)
  else if writeOk then (true, none)
  else (false, some "write trim.txt failed")

/-- Observable outcome of `Config.DeleteExpiredItems`: whether the
exclusive trim lock was taken, and whether `TrimNow` was run. -/
structure TrimTrace where
  tookTrimLock : Bool
  ranTrim : Bool
  err : Option String
deriving DecidableEq, Repr

/-- Model of `Config.DeleteExpiredItems`: if `trimPending` is false on a lock-free
read of `trim.txt`, return immediately (fast path, no lock). Otherwise
take the exclusive trim lock, re-check and refresh through
`updateTrimRefreshTime`, and run `TrimNow` when the refresh was ours
(`TrimNow` itself is outside this model; `ranTrim` records that it runs). -/
def DeleteExpiredItems (maxAge now : Nat) (read1 : ReadResult)
    (now2 : Nat) (read2 : ReadResult) (writeOk : Bool) : TrimTrace :=
  if !trimPending maxAge now read1 then ⟨false, false, none⟩
  else
    match updateTrimRefreshTime maxAge true now2 read2 writeOk with
    | (_, some e) => ⟨true, false, some e⟩
    | (runTrim, none) => ⟨true, runTrim, none⟩

/-! Lock primitive and guarded update (`cache/lockedfile.go`, first
variant, lines 25–113). Lock acquisition (`filelock.RLock`/`Lock`), the
body and the file operations are abstracted by their outcomes; the string
results carry the heads of the `fmt.Errorf` wrappers. -/

/-- Model of `cache.Lockedfile`: reject paths with NUL bytes, report open and lock
failures, run the body, then unlock and close; the unlock error is kept
only when the body succeeded, and the close error only when both body and
unlock succeeded. -/
def Lockedfile (lockfile : List Char)
    (openErr lockErr bodyErr unlockErr closeErr : Option String) :
    Option String :=
  if lockfile.any (fun c => c.toNat == 0) then
    some "bad lockfile characters"
  else
    match openErr with
    | some e => some ("failed to open/create file - " ++ e)
    | none =>
      match lockErr with
      | some e => some ("failed to lock file - " ++ e)
      | none =>
        let e1 := bodyErr
        let e2 := if e1 = none then
            (match unlockErr with
             | some u => some ("unlock failed: " ++ u)
             | none => none)
          else e1
        if e2 = none then
          (match closeErr with
           | some c => some ("close failed: " ++ c)
           | none => none)
        else e2

/-- Model of `cache.updateDatafile`: reject paths with NUL bytes, report open and
read failures, run the update callback, close the file, and return the
callback's error if any, else the close error. -/
def updateDatafile (datafile : List Char)
    (openErr readErr updateErr closeErr : Option String) : Option String :=
  if datafile.any (fun c => c.toNat == 0) then
    some "bad datafile characters"
  else
    match openErr with
    | some e => some ("open file failed - " ++ e)
    | none =>
      match readErr with
      | some e => some ("read file failed - " ++ e)
      | none =>
        match updateErr with
        | some e => some e
        | none => closeErr

/-! Configuration (`cache/config.go`, second variant: `NewConfig` and
`newConfig`, lines 291–379). The stdlib composite
`json.Unmarshal` + `time.ParseDuration` applied to the existing
`config.json` bytes is abstracted as the `parseMaxAge` parameter. -/

/-- A `cache.Config` as far as the claims need it: the effective `maxAge`
in nanoseconds. -/
structure ConfigM where
  maxAge : Nat
deriving DecidableEq, Repr

/-- Ten seconds, the public `maxAge` minimum. -/
def tenSeconds : Nat := 10 * nsPerSec

/-- Ten milliseconds, the internal `maxAge` minimum. -/
def tenMilliseconds : Nat := 10 * 1000000

/-- The `updateContent` closure of `newConfig`, run on the current bytes
`old` of `config.json` under the guarded update of the global lock: when
`old` is empty, create the `data` tree and write the caller's `maxAge`
(`writeOk` is the `writeString` outcome); otherwise ignore the caller's
value, parse the persisted `maxAge` and require it to be at least ten
seconds. Returns the effective `maxAge`. -/
def newConfigUpdate (parseMaxAge : List Char → Except String Nat)
    (callerMaxAge : Nat) (old : List Char) (writeOk : Bool) :
    Except String Nat :=
  if old = [] then
    if writeOk then Except.ok callerMaxAge
    else Except.error "write config.json failed"
  else
    match parseMaxAge old with
    | Except.error e => Except.error e
    | Except.ok d =>
      if d < tenSeconds then Except.error "maxAge too short"
      else Except.ok d

/-- Model of `cache.newConfig`: reject `maxAge` below ten milliseconds, validate
the cache directory (absolute, no NUL bytes; `filepath.Clean` and the
always-true UTF-8 validity of `List Char` are not modelled), then obtain
the effective `maxAge` from the guarded update over `config.json`. -/
def newConfig (parseMaxAge : List Char → Except String Nat)
    (dir : List Char) (callerMaxAge : Nat) (old : List Char)
    (writeOk : Bool) : Except String ConfigM :=
  if callerMaxAge < tenMilliseconds then
    Except.error "internal maxAge minimum is 10 milliseconds"
  else if dir.any (fun c => c.toNat == 0) || dir.head? ≠ some '/' then
    Except.error "bad characters in config dir"
  else
    (newConfigUpdate parseMaxAge callerMaxAge old writeOk).map
      (fun d => ⟨d⟩)

/-- Model of `cache.NewConfig`: the public constructor, which additionally rejects
`maxAge` below ten seconds before delegating to `newConfig`. -/
def NewConfig (parseMaxAge : List Char → Except String Nat)
    (dir : List Char) (callerMaxAge : Nat) (old : List Char)
    (writeOk : Bool) : Except String ConfigM :=
  if callerMaxAge < tenSeconds then
    Except.error "maxAge minimum is 10 seconds"
  else newConfig parseMaxAge dir callerMaxAge old writeOk

/-! Lookup engine (`Lookup2`, three-level-lock variant). The surrounding
shared global and part locks and the exclusive item lock are assumed to be
acquired successfully (their failures only wrap errors); `mkdirAllRace` on
the item directory is assumed to succeed (its failure path returns
`/invalid/outdir/1` before anything else happens). -/

/-- Rendering of a component path as the absolute path string built by
`filepath.Join` from `/`-rooted clean components. -/
def renderPath : Path → List Char
  | [] => []
  | s :: rest => '/' :: s.toList ++ renderPath rest

/-- Per-call environment of one `Lookup2` call: the 8 random hex characters
(`randomHash()[0:8]`), the `os.Mkdir(outdir)` outcome, the producer
outcome, the `writeString` outcome, and the wall clock (nanoseconds since
the epoch) at which `Item.refresh` would read `time.Now()`. -/
structure LookupEnv where
  randName : String
  mkdirOutdirOk : Bool
  createErr : Option String
  writeErr : Option String
  now : Nat

/-- Observable outcome of one `Lookup2` call: the returned string and
error, the `info` content after the call, how many times the producer
callback ran, and the destructive actions performed. -/
structure LookupResult where
  ret : List Char
  err : Option String
  info : List Char
  createCalls : Nat
  fsActions : List FsAction
deriving DecidableEq, Repr

/-- The placeholder string `Lookup2` returns alongside an error from the
locked update. -/
def invalidOutdir2 : List Char := "/invalid/outdir/2".toList

/-- Effect on the datafile of the `writeString` closure of
`updateDatafile`: seek to offset 0 and write without truncation, so the
new bytes overlay the old ones and any longer old tail survives. -/
def writeOverlay (w old : List Char) : List Char := w ++ old.drop w.length

/-- Model of `Config.Lookup2` on the item directory `itemDir` of the hashed input,
with `oldInfo` the current bytes of the item's `info` file (empty when the
file is absent or fresh, as `updateDatafile` creates it empty). Miss path
(`oldInfo = []`): make the random object directory, run the producer;
on producer or commit-write error remove the datafile and the object
directory via `safeRemoveAll2` and propagate the error; on success commit
a fresh record. Hit path: parse the record (corruption fails the lookup),
refresh the timestamp when its age exceeds `maxAge/10`, rewrite the
record, and return the record's objdir. A failed write on the hit path
leaves the bytes unchanged in this model (partial writes are not
modelled). -/
def Lookup2 (maxAge : Nat) (itemDir : Path) (oldInfo : List Char)
    (env : LookupEnv) : LookupResult :=
  let datafile := itemDir ++ ["info"]
  if oldInfo = [] then
    let outdirP := itemDir ++ [env.randName]
    let outdir := renderPath outdirP
    if env.mkdirOutdirOk = false then
      ⟨invalidOutdir2, some "outdir already exists - program error",
        oldInfo, 0, []⟩
    else
      match env.createErr with
      | some e =>
        let r := safeRemoveAll2 datafile outdirP
        ⟨invalidOutdir2, some e, [], 1, r.1⟩
      | none =>
        let obj := refreshItem env.now outdir
        match env.writeErr with
        | some e =>
          let r := safeRemoveAll2 datafile outdirP
          ⟨invalidOutdir2, some e, [], 1, r.1⟩
        | none => ⟨outdir, none, writeOverlay (item2str obj) oldInfo, 1, []⟩
  else
    match str2item oldInfo with
    | Except.error e =>
      ⟨invalidOutdir2, some ("cache corruption - " ++ e), oldInfo, 0, []⟩
    | Except.ok obj =>
      let obj2 := if ageNs env.now obj > maxAge / 10 then
          refreshItem env.now obj.objdir
        else obj
      match env.writeErr with
      | some e =>
        ⟨invalidOutdir2, some ("cache refresh failed - " ++ e), oldInfo, 0, []⟩
      | none => ⟨obj.objdir, none, writeOverlay (item2str obj2) oldInfo, 0, []⟩

/-! Character classes of the shapes named by claim C3 (`[0-9a-f]`), stated
from the claim's own wording, for comparison with the code's guard. -/

/-- Hexadecimal digit characters `[0-9a-f]`. -/
def isHexDigitChar (c : Char) : Bool :=
  (48 ≤ c.toNat && c.toNat ≤ 57) || (97 ≤ c.toNat && c.toNat ≤ 102)

/-- Shape `[0-9a-f]{2}-t` from the claim. -/
def hex2tMatch (s : String) : Bool :=
  match s.toList with
  | [a, b, c, d] => isHexDigitChar a && isHexDigitChar b && c == '-' && d == 't'
  | _ => false

/-- Shape `[0-9a-f]{40}` from the claim. -/
def hex40Match (s : String) : Bool :=
  s.toList.length == 40 && s.toList.all isHexDigitChar

/-- Shape `[0-9a-f]{8}` from the claim. -/
def hex8Match (s : String) : Bool :=
  s.toList.length == 8 && s.toList.all isHexDigitChar

/-- Modelled from the spec: the shapes
`…/[0-9a-f]{2}-t/[0-9a-f]{40}` and `…/[0-9a-f]{2}-t/[0-9a-f]{40}/[0-9a-f]{8}`
that claim C3 asserts are the only deletable paths. -/
def specShapeHex (p : Path) : Bool :=
  match p.reverse with
  | z :: y :: x :: _ =>
    (hex2tMatch y && hex40Match z) ||
      (hex2tMatch x && hex40Match y && hex8Match z)
  | [z, y] => hex2tMatch y && hex40Match z
  | _ => false

/-! Basic facts about digits. -/

theorem isDigitChar_digitChar {d : Nat} (h : d < 10) :
    isDigitChar (digitChar d) = true := by
  interval_cases d <;> decide

theorem digitVal_digitChar {d : Nat} (h : d < 10) :
    digitVal (digitChar d) = d := by
  interval_cases d <;> decide

theorem not_space_of_digit {c : Char} (h : isDigitChar c = true) :
    isSpaceGo c = false := by
  simp only [isDigitChar, Bool.and_eq_true, decide_eq_true_eq] at h
  simp only [isSpaceGo, Bool.or_eq_false_iff, Bool.and_eq_false_iff,
    beq_eq_false_iff_ne, ne_eq, decide_eq_false_iff_not, not_le]
  omega

theorem ne_minus_of_digit {c : Char} (h : isDigitChar c = true) : c ≠ '-' := by
  rintro rfl; simp [isDigitChar] at h

theorem ne_plus_of_digit {c : Char} (h : isDigitChar c = true) : c ≠ '+' := by
  rintro rfl; simp [isDigitChar] at h

theorem natToDigits_ne_nil (n : Nat) : natToDigits n ≠ [] := by
  rw [natToDigits]
  split
  · simp
  · simp

theorem mem_natToDigits_digit (n : Nat) :
    ∀ c ∈ natToDigits n, isDigitChar c = true := by
  induction n using Nat.strong_induction_on with
  | _ n ih =>
    rw [natToDigits]
    split
    · next h =>
      intro c hc
      simp only [List.mem_singleton] at hc
      subst hc
      exact isDigitChar_digitChar h
    · next h =>
      intro c hc
      rw [List.mem_append] at hc
      rcases hc with hc | hc
      · exact ih (n / 10) (Nat.div_lt_self (by omega) (by omega)) c hc
      · simp only [List.mem_singleton] at hc
        subst hc
        exact isDigitChar_digitChar (Nat.mod_lt n (by omega))

theorem natToDigits_all_digit (n : Nat) :
    (natToDigits n).all isDigitChar = true := by
  rw [List.all_eq_true]
  exact fun c hc => mem_natToDigits_digit n c hc

theorem digitsVal_append_singleton (l : List Char) (c : Char) :
    digitsVal (l ++ [c]) = 10 * digitsVal l + digitVal c := by
  simp [digitsVal, List.foldl_append]

theorem digitsVal_natToDigits (n : Nat) : digitsVal (natToDigits n) = n := by
  induction n using Nat.strong_induction_on with
  | _ n ih =>
    rw [natToDigits]
    split
    · next h =>
      simp [digitsVal, digitVal_digitChar h]
    · next h =>
      rw [digitsVal_append_singleton,
        ih (n / 10) (Nat.div_lt_self (by omega) (by omega)),
        digitVal_digitChar (Nat.mod_lt n (by omega))]
      omega

/-- Parsing the `%d` rendering of an integer in the signed 64-bit range
recovers the integer. -/
theorem parseInt64_intToChars (i : Int)
    (hlo : -(2 ^ 63) ≤ i) (hhi : i < 2 ^ 63) :
    parseInt64 (intToChars i) = some i := by
  by_cases hneg : i < 0
  · have habs : (i.natAbs : Int) = -i := Int.ofNat_natAbs_of_nonpos (by omega)
    have hle : i.natAbs ≤ 2 ^ 63 := by omega
    simp only [intToChars, if_pos hneg, parseInt64]
    have hne := natToDigits_ne_nil i.natAbs
    simp only [beq_self_eq_true, Bool.true_or, if_pos,
      List.isEmpty_eq_true, natToDigits_all_digit, if_neg hne,
      digitsVal_natToDigits, if_pos hle, if_pos rfl]
    congr 1
    omega
  · have h0 : 0 ≤ i := by omega
    have habs : (i.natAbs : Int) = i := Int.natAbs_of_nonneg h0
    have hle : i.natAbs ≤ 2 ^ 63 - 1 := by omega
    simp only [intToChars, if_neg hneg]
    obtain ⟨c, rest, hcr⟩ : ∃ c rest, natToDigits i.natAbs = c :: rest := by
      cases h : natToDigits i.natAbs with
      | nil => exact absurd h (natToDigits_ne_nil _)
      | cons c rest => exact ⟨c, rest, rfl⟩
    have hcd : isDigitChar c = true := by
      have := natToDigits_all_digit i.natAbs
      rw [hcr] at this
      simp only [List.all_cons, Bool.and_eq_true] at this
      exact this.1
    have hcm : (c == '-') = false := by
      simp [ne_minus_of_digit hcd]
    have hcp : (c == '+') = false := by
      simp [ne_plus_of_digit hcd]
    rw [hcr, parseInt64]
    simp only [hcm, hcp, Bool.or_self, if_neg Bool.false_ne_true, ← hcr,
      List.isEmpty_eq_true, if_neg (natToDigits_ne_nil i.natAbs),
      natToDigits_all_digit, if_pos rfl, digitsVal_natToDigits,
      if_pos hle, Bool.false_eq_true, if_false, if_true]
    rw [habs]

/-! Round-trip lemmas for the record format. -/

theorem mem_intToChars {c : Char} {i : Int} (h : c ∈ intToChars i) :
    isSpaceGo c = false := by
  unfold intToChars at h
  split at h
  · rcases List.mem_cons.mp h with rfl | h
    · decide
    · exact not_space_of_digit (mem_natToDigits_digit _ c h)
  · exact not_space_of_digit (mem_natToDigits_digit _ c h)

theorem intToChars_ne_nil (i : Int) : intToChars i ≠ [] := by
  unfold intToChars
  split
  · simp
  · exact natToDigits_ne_nil _

theorem newline_space : isSpaceGo '\n' = true := by decide

theorem takeBeforeNewline_append {l : List Char} (t : List Char)
    (h : '\n' ∉ l) : takeBeforeNewline (l ++ '\n' :: t) = some l := by
  induction l with
  | nil => simp [takeBeforeNewline]
  | cons c cs ih =>
    have hc : c ≠ '\n' := fun hc => h (hc ▸ List.mem_cons_self c cs)
    have hcs : '\n' ∉ cs := fun hm => h (List.mem_cons_of_mem c hm)
    rw [List.cons_append, takeBeforeNewline, if_neg hc, ih hcs]
    rfl

theorem fieldsAux_word (w : List Char) (acc rest : List Char)
    (hw : ∀ c ∈ w, isSpaceGo c = false) :
    fieldsAux acc (w ++ rest) = fieldsAux (w.reverse ++ acc) rest := by
  induction w generalizing acc with
  | nil => simp
  | cons c cs ih =>
    have hc : isSpaceGo c = false := hw c (List.mem_cons_self c cs)
    have hcs : ∀ x ∈ cs, isSpaceGo x = false :=
      fun x hx => hw x (List.mem_cons_of_mem c hx)
    rw [List.cons_append, fieldsAux, if_neg (by simp [hc]), ih (c :: acc) hcs,
      List.reverse_cons, List.append_assoc, List.singleton_append]

theorem space_space : isSpaceGo ' ' = true := by decide

theorem fieldsAux_space (acc rest : List Char) (h : acc ≠ []) :
    fieldsAux acc (' ' :: rest) = acc.reverse :: fieldsAux [] rest := by
  have hne : acc.isEmpty = false := by
    cases acc with
    | nil => exact absurd rfl h
    | cons a l => rfl
  simp [fieldsAux, hne, space_space]

theorem fieldsAux_last (acc : List Char) (h : acc ≠ []) :
    fieldsAux acc [] = [acc.reverse] := by
  have : acc.isEmpty = false := by
    cases acc with
    | nil => exact absurd rfl h
    | cons a l => rfl
  simp [fieldsAux, this]

theorem fieldsAux_word_all (acc w : List Char)
    (hw : ∀ c ∈ w, isSpaceGo c = false) :
    fieldsAux acc w = fieldsAux (w.reverse ++ acc) [] := by
  have h := fieldsAux_word w acc [] hw
  rwa [List.append_nil] at h

/-- Splitting a three-word line with single spaces yields the three words. -/
theorem fields_three (w1 w2 w3 : List Char)
    (h1 : w1 ≠ []) (h2 : w2 ≠ []) (h3 : w3 ≠ [])
    (n1 : ∀ c ∈ w1, isSpaceGo c = false)
    (n2 : ∀ c ∈ w2, isSpaceGo c = false)
    (n3 : ∀ c ∈ w3, isSpaceGo c = false) :
    fields (w1 ++ ' ' :: (w2 ++ ' ' :: w3)) = [w1, w2, w3] := by
  have hr1 : w1.reverse ≠ [] := by simpa using h1
  have hr2 : w2.reverse ≠ [] := by simpa using h2
  have hr3 : w3.reverse ≠ [] := by simpa using h3
  unfold fields
  rw [fieldsAux_word w1 [] (' ' :: (w2 ++ ' ' :: w3)) n1, List.append_nil,
    fieldsAux_space _ _ hr1, List.reverse_reverse,
    fieldsAux_word w2 [] (' ' :: w3) n2, List.append_nil,
    fieldsAux_space _ _ hr2, List.reverse_reverse,
    fieldsAux_word_all [] w3 n3, List.append_nil,
    fieldsAux_last _ hr3, List.reverse_reverse]

/-- Round trip of the record format, tolerating any trailing bytes after
the newline: parsing the rendering of a well-formed record recovers the
record. -/
theorem str2item_item2str (x : Item) (t : List Char)
    (hobj : x.objdir ≠ [])
    (hsp : ∀ c ∈ x.objdir, isSpaceGo c = false)
    (h1lo : -(2 ^ 63) ≤ x.refreshTime) (h1hi : x.refreshTime < 2 ^ 63)
    (h2lo : -(2 ^ 63) ≤ x.refreshTimeNano) (h2hi : x.refreshTimeNano < 2 ^ 63) :
    str2item (item2str x ++ t) = Except.ok x := by
  have hline :
      item2str x ++ t =
        (x.objdir ++ ' ' :: (intToChars x.refreshTime ++
          ' ' :: intToChars x.refreshTimeNano)) ++ '\n' :: t := by
    simp [item2str, List.append_assoc]
  have hnl :
      '\n' ∉ x.objdir ++ ' ' :: (intToChars x.refreshTime ++
        ' ' :: intToChars x.refreshTimeNano) := by
    intro hm
    simp only [List.mem_append, List.mem_cons] at hm
    rcases hm with hm | hm | hm | hm | hm
    · exact absurd (hsp _ hm) (by simp [newline_space])
    · exact absurd hm (by decide)
    · exact absurd (mem_intToChars hm) (by simp [newline_space])
    · exact absurd hm (by decide)
    · exact absurd (mem_intToChars hm) (by simp [newline_space])
  have ht :
      takeBeforeNewline (item2str x ++ t) =
        some (x.objdir ++ ' ' :: (intToChars x.refreshTime ++
          ' ' :: intToChars x.refreshTimeNano)) := by
    rw [hline]
    exact takeBeforeNewline_append t hnl
  have hf :
      fields (x.objdir ++ ' ' :: (intToChars x.refreshTime ++
          ' ' :: intToChars x.refreshTimeNano)) =
        [x.objdir, intToChars x.refreshTime, intToChars x.refreshTimeNano] :=
    fields_three _ _ _ hobj (intToChars_ne_nil _) (intToChars_ne_nil _) hsp
      (fun _ hc => mem_intToChars hc) (fun _ hc => mem_intToChars hc)
  simp only [str2item, ht, hf, parseInt64_intToChars _ h1lo h1hi,
    parseInt64_intToChars _ h2lo h2hi]

/-! Lemmas about the guard. -/

theorem goBase_concat (l : Path) (a : String) : goBase (l ++ [a]) = a := by
  simp [goBase]

theorem goDir_concat (l : Path) (a : String) : goDir (l ++ [a]) = l := by
  simp [goDir]

theorem re2Match_length {s : String} (h : re2Match s = true) :
    s.length = 40 := by
  simp only [re2Match, Bool.and_eq_true, beq_iff_eq] at h
  exact h.1

theorem re1Match_length {s : String} (h : re1Match s = true) :
    s.length = 4 := by
  unfold re1Match at h
  split at h
  · next heq =>
    show s.toList.length = 4
    rw [heq]
    rfl
  · exact absurd h (by simp)

theorem path_concat_of_goBase {p : Path} {n : Nat}
    (h : (goBase p).length = n) (hn : n ≠ 1) :
    ∃ q a, p = q ++ [a] ∧ a.length = n := by
  rcases List.eq_nil_or_concat p with rfl | ⟨q, a, rfl⟩
  · have h1 : goBase ([] : Path) = "/" := rfl
    rw [h1] at h
    have h2 : ("/" : String).length = 1 := rfl
    omega
  · refine ⟨q, a, List.concat_eq_append q a, ?_⟩
    rw [List.concat_eq_append] at h
    rwa [goBase_concat] at h

/-- Characterisation of the guard: deletion is allowed exactly for paths
whose last two components (or, when the final component has exactly eight
characters, the two before it) match the partition and item regexes. -/
theorem safeRemoveAllowed_iff (p : Path) :
    safeRemoveAllowed p = true ↔
      (∃ pre d1 d2, p = pre ++ [d1, d2] ∧ d2.length ≠ 8 ∧
        re1Match d1 = true ∧ re2Match d2 = true) ∨
      (∃ pre d1 d2 d3, p = pre ++ [d1, d2, d3] ∧ d3.length = 8 ∧
        re1Match d1 = true ∧ re2Match d2 = true) := by
  constructor
  · intro h
    unfold safeRemoveAllowed at h
    by_cases h8 : (goBase p).length = 8
    · right
      rw [if_pos (beq_iff_eq.mpr h8), Bool.and_eq_true] at h
      obtain ⟨hd1, hd2⟩ := h
      obtain ⟨q, d3, rfl, hd3len⟩ := path_concat_of_goBase h8 (by omega)
      rw [goDir_concat] at hd1 hd2
      obtain ⟨q2, d2, rfl, _⟩ :=
        path_concat_of_goBase (re2Match_length hd2) (by omega)
      rw [goDir_concat] at hd1
      obtain ⟨q1, d1, rfl, _⟩ :=
        path_concat_of_goBase (re1Match_length hd1) (by omega)
      rw [goBase_concat] at hd1 hd2
      refine ⟨q1, d1, d2, d3, by simp, hd3len, hd1, hd2⟩
    · left
      rw [if_neg (by simpa using h8), Bool.and_eq_true] at h
      obtain ⟨hd1, hd2⟩ := h
      obtain ⟨q2, d2, rfl, hd2len⟩ :=
        path_concat_of_goBase (re2Match_length hd2) (by omega)
      rw [goDir_concat] at hd1
      obtain ⟨q1, d1, rfl, _⟩ :=
        path_concat_of_goBase (re1Match_length hd1) (by omega)
      rw [goBase_concat] at hd1 hd2
      refine ⟨q1, d1, d2, by simp, by omega, hd1, hd2⟩
  · rintro (⟨pre, d1, d2, rfl, h8, hd1, hd2⟩ |
      ⟨pre, d1, d2, d3, rfl, h8, hd1, hd2⟩)
    · have e : pre ++ [d1, d2] = (pre ++ [d1]) ++ [d2] := by simp
      unfold safeRemoveAllowed
      rw [e, goBase_concat, goDir_concat, goBase_concat, goDir_concat,
        if_neg (by simpa using h8), hd1, hd2]
      rfl
    · have e : pre ++ [d1, d2, d3] = ((pre ++ [d1]) ++ [d2]) ++ [d3] := by
        simp
      unfold safeRemoveAllowed
      rw [e, goBase_concat, goDir_concat, goBase_concat, goDir_concat,
        goBase_concat, if_pos (by simpa using h8), hd1, hd2]
      rfl

/-! Auxiliary lemmas for the claim theorems. -/

theorem item2str_ne_nil (x : Item) : item2str x ≠ [] := by
  simp [item2str]

theorem renderPath_ne_nil {p : Path} (h : p ≠ []) : renderPath p ≠ [] := by
  cases p with
  | nil => exact absurd rfl h
  | cons a l => simp [renderPath]

theorem refreshItem_time_bounds (now : Nat) (objdir : List Char)
    (hnow : now < 2 ^ 63) :
    -(2 ^ 63) ≤ (refreshItem now objdir).refreshTime ∧
      (refreshItem now objdir).refreshTime < 2 ^ 63 ∧
      -(2 ^ 63) ≤ (refreshItem now objdir).refreshTimeNano ∧
      (refreshItem now objdir).refreshTimeNano < 2 ^ 63 := by
  refine ⟨?_, ?_, ?_, ?_⟩ <;> simp only [refreshItem, nsPerSec] <;> omega

/-- Round trip of a freshly refreshed record. -/
theorem str2item_refreshItem (now : Nat) (objdir : List Char) (t : List Char)
    (hobj : objdir ≠ []) (hsp : ∀ c ∈ objdir, isSpaceGo c = false)
    (hnow : now < 2 ^ 63) :
    str2item (item2str (refreshItem now objdir) ++ t) =
      Except.ok (refreshItem now objdir) := by
  obtain ⟨b1, b2, b3, b4⟩ := refreshItem_time_bounds now objdir hnow
  exact str2item_item2str (refreshItem now objdir) t hobj hsp b1 b2 b3 b4

/-- Evaluation of the miss path of `Lookup2` when the object directory is
created, the producer succeeds and the commit write succeeds. -/
theorem Lookup2_miss_commit (maxAge : Nat) (itemDir : Path) (env : LookupEnv)
    (hmk : env.mkdirOutdirOk = true) (hc : env.createErr = none)
    (hw : env.writeErr = none) :
    Lookup2 maxAge itemDir [] env =
      ⟨renderPath (itemDir ++ [env.randName]), none,
        item2str (refreshItem env.now (renderPath (itemDir ++ [env.randName]))),
        1, []⟩ := by
  simp [Lookup2, hmk, hc, hw, writeOverlay]

/-- Evaluation of the hit path of `Lookup2` on a parsable record when the
rewrite succeeds. -/
theorem Lookup2_hit (maxAge : Nat) (itemDir : Path) (oldInfo : List Char)
    (env : LookupEnv) (obj : Item)
    (hne : oldInfo ≠ []) (hparse : str2item oldInfo = Except.ok obj)
    (hw : env.writeErr = none) :
    Lookup2 maxAge itemDir oldInfo env =
      ⟨obj.objdir, none,
        writeOverlay (item2str (if ageNs env.now obj > maxAge / 10 then
          refreshItem env.now obj.objdir else obj)) oldInfo, 0, []⟩ := by
  simp [Lookup2, hne, hparse, hw]

/-! Claim theorems. -/

/-- Claim C7: for every well-formed item record `x` (objdir non-empty and
free of whitespace, timestamps valid 64-bit integers),
`str2item (item2str x) = x`, and parsing ignores arbitrary extra bytes
after the first newline, so `str2item (item2str x ++ t) = x` for every
suffix `t`. -/
theorem C7_record_roundtrip (x : Item) (t : List Char)
    (hobj : x.objdir ≠ [])
    (hsp : ∀ c ∈ x.objdir, isSpaceGo c = false)
    (h1lo : -(2 ^ 63) ≤ x.refreshTime) (h1hi : x.refreshTime < 2 ^ 63)
    (h2lo : -(2 ^ 63) ≤ x.refreshTimeNano)
    (h2hi : x.refreshTimeNano < 2 ^ 63) :
    str2item (item2str x) = Except.ok x ∧
      str2item (item2str x ++ t) = Except.ok x := by
  constructor
  · have h := str2item_item2str x [] hobj hsp h1lo h1hi h2lo h2hi
    simpa using h
  · exact str2item_item2str x t hobj hsp h1lo h1hi h2lo h2hi

/-- Witness for C7 at a concrete record and suffix. -/
theorem C7_record_roundtrip_witness :
    str2item (item2str ⟨"/a/b".toList, 5, 6⟩ ++ "junk".toList) =
      Except.ok ⟨"/a/b".toList, 5, 6⟩ :=
  (C7_record_roundtrip ⟨"/a/b".toList, 5, 6⟩ ("junk".toList)
    (by decide) (by decide) (by decide) (by decide) (by decide)
    (by decide)).2

/-- Claim C1: starting from an absent entry, two consecutive `Lookup2`
calls on the same item (no expiration or trim in between, the producer and
all writes succeeding) return the same objdir; the producer runs exactly
once, on the first call only, and the second call takes the hit path,
returning the objdir stored in the committed record. -/
theorem C1_lookup_idempotent (maxAge : Nat) (itemDir : Path)
    (env1 env2 : LookupEnv)
    (hmk : env1.mkdirOutdirOk = true)
    (hc : env1.createErr = none)
    (hw1 : env1.writeErr = none)
    (hw2 : env2.writeErr = none)
    (hsp : ∀ c ∈ renderPath (itemDir ++ [env1.randName]), isSpaceGo c = false)
    (hnow : env1.now < 2 ^ 63) :
    (Lookup2 maxAge itemDir [] env1).err = none ∧
      (Lookup2 maxAge itemDir
        (Lookup2 maxAge itemDir [] env1).info env2).err = none ∧
      (Lookup2 maxAge itemDir [] env1).ret =
        renderPath (itemDir ++ [env1.randName]) ∧
      (Lookup2 maxAge itemDir
        (Lookup2 maxAge itemDir [] env1).info env2).ret =
        (Lookup2 maxAge itemDir [] env1).ret ∧
      (Lookup2 maxAge itemDir [] env1).createCalls = 1 ∧
      (Lookup2 maxAge itemDir
        (Lookup2 maxAge itemDir [] env1).info env2).createCalls = 0 := by
  have houtne : renderPath (itemDir ++ [env1.randName]) ≠ [] :=
    renderPath_ne_nil (by simp)
  have hr1 := Lookup2_miss_commit maxAge itemDir env1 hmk hc hw1
  have hrt : str2item (item2str (refreshItem env1.now
      (renderPath (itemDir ++ [env1.randName])))) =
      Except.ok (refreshItem env1.now
        (renderPath (itemDir ++ [env1.randName]))) := by
    have h := str2item_refreshItem env1.now
      (renderPath (itemDir ++ [env1.randName])) [] houtne hsp hnow
    simpa using h
  simp only [hr1]
  rw [Lookup2_hit maxAge itemDir
    (item2str (refreshItem env1.now (renderPath (itemDir ++ [env1.randName]))))
    env2 (refreshItem env1.now (renderPath (itemDir ++ [env1.randName])))
    (item2str_ne_nil _) hrt hw2]
  refine ⟨?_, ?_, ?_, ?_, ?_, ?_⟩ <;> first | rfl | exact trivial

/-- Witness for C1 at a concrete item directory and environments. -/
theorem C1_lookup_idempotent_witness :
    (Lookup2 1000 ["d", "aa-t"] [] ⟨"01234567", true, none, none, 12345⟩).ret =
      renderPath (["d", "aa-t"] ++ ["01234567"]) ∧
      (Lookup2 1000 ["d", "aa-t"]
        (Lookup2 1000 ["d", "aa-t"] []
          ⟨"01234567", true, none, none, 12345⟩).info
        ⟨"89abcdef", true, none, none, 999⟩).ret =
        (Lookup2 1000 ["d", "aa-t"] []
          ⟨"01234567", true, none, none, 12345⟩).ret := by
  have h := C1_lookup_idempotent 1000 ["d", "aa-t"]
    ⟨"01234567", true, none, none, 12345⟩ ⟨"89abcdef", true, none, none, 999⟩
    rfl rfl rfl rfl (by decide) (by decide)
  exact ⟨h.2.2.1, h.2.2.2.1⟩

/-- Claim C2, counterexample: on a concrete miss where the producer fails,
`Lookup2` does perform removals — it deletes the datafile and the newly
created object directory through `safeRemoveAll2` — refuting the claim
that the cache performs no removal and leaves the directory as-is (the
error is still propagated and `info` stays empty). -/
theorem C2_counterexample :
    FsAction.removeAll
        ["data", "aa-t", "0123456789012345678901234567890123456789",
          "01234567"] ∈
      (Lookup2 1000
          ["data", "aa-t", "0123456789012345678901234567890123456789"] []
          ⟨"01234567", true, some "boom", none, 5⟩).fsActions ∧
      (Lookup2 1000
          ["data", "aa-t", "0123456789012345678901234567890123456789"] []
          ⟨"01234567", true, some "boom", none, 5⟩).err = some "boom" := by
  decide

/-- Claim C2 as amended: when the producer fails on the miss path, the
producer's error is propagated unchanged, no commit occurs (`info` is
empty afterwards), and the cache removes the `info` file and the newly
created object directory via `safeRemoveAll2` (the removal's own outcome
is discarded). -/
theorem C2_create_error (maxAge : Nat) (itemDir : Path) (env : LookupEnv)
    (e : String)
    (hmk : env.mkdirOutdirOk = true) (hc : env.createErr = some e)
    (hre1 : re1Match (goBase (goDir itemDir)) = true)
    (hre2 : re2Match (goBase itemDir) = true)
    (hlen : env.randName.length = 8) :
    Lookup2 maxAge itemDir [] env =
      ⟨invalidOutdir2, some e, [], 1,
        [FsAction.removeFile (itemDir ++ ["info"]),
          FsAction.removeAll (itemDir ++ [env.randName])]⟩ := by
  have hallow : safeRemoveAllowed (itemDir ++ [env.randName]) = true := by
    unfold safeRemoveAllowed
    rw [goBase_concat, if_pos (by simp [hlen]), goDir_concat, hre1, hre2]
    rfl
  simp [Lookup2, hmk, hc, safeRemoveAll2, safeRemoveAll, hallow]

/-- Witness for the amended C2 at a concrete item and failing producer. -/
theorem C2_create_error_witness :
    Lookup2 1000
        ["data", "aa-t", "0123456789012345678901234567890123456789"] []
        ⟨"01234567", true, some "boom", none, 5⟩ =
      ⟨invalidOutdir2, some "boom", [], 1,
        [FsAction.removeFile
            ["data", "aa-t", "0123456789012345678901234567890123456789",
              "info"],
          FsAction.removeAll
            ["data", "aa-t", "0123456789012345678901234567890123456789",
              "01234567"]]⟩ :=
  C2_create_error 1000
    ["data", "aa-t", "0123456789012345678901234567890123456789"]
    ⟨"01234567", true, some "boom", none, 5⟩ "boom"
    rfl rfl (by decide) (by decide) (by decide)

/-- Claim C3, counterexample: the guard's character class is `[a-z0-9]`,
not `[0-9a-f]`, so the concrete path `/home/zz-t/zzz…z` (40 `z`s) is not
of either claimed shape yet `safeRemoveAll` deletes it rather than
refusing. -/
theorem C3_counterexample :
    safeRemoveAllowed
        ["home", "zz-t", "zzzzzzzzzzzzzzzzzzzzzzzzzzzzzzzzzzzzzzzz"] =
        true ∧
      specShapeHex
        ["home", "zz-t", "zzzzzzzzzzzzzzzzzzzzzzzzzzzzzzzzzzzzzzzz"] =
        false ∧
      safeRemoveAll
        ["home", "zz-t", "zzzzzzzzzzzzzzzzzzzzzzzzzzzzzzzzzzzzzzzz"] =
        ([FsAction.removeAll
            ["home", "zz-t", "zzzzzzzzzzzzzzzzzzzzzzzzzzzzzzzzzzzzzzzz"]],
          none) := by
  decide

/-- Claim C3 as amended: `safeRemoveAll` deletes a path exactly when its
last two components (or, when the final component has exactly eight
characters, the two before it) match `[a-z0-9]{2}-t` and `[a-z0-9]{40}`
— the final 8-character component itself is not pattern-checked; every
other path (the cache root and `/` included) is refused with an error and
no destructive action. -/
theorem C3_guard_shapes (p : Path) :
    (safeRemoveAllowed p = true ↔
      (∃ pre d1 d2, p = pre ++ [d1, d2] ∧ d2.length ≠ 8 ∧
        re1Match d1 = true ∧ re2Match d2 = true) ∨
      (∃ pre d1 d2 d3, p = pre ++ [d1, d2, d3] ∧ d3.length = 8 ∧
        re1Match d1 = true ∧ re2Match d2 = true)) ∧
    (safeRemoveAllowed p = true →
      safeRemoveAll p = ([FsAction.removeAll p], none)) ∧
    (safeRemoveAllowed p = false →
      safeRemoveAll p = ([], some "removeAll: bad objdir")) := by
  refine ⟨safeRemoveAllowed_iff p, ?_, ?_⟩
  · intro h
    simp [safeRemoveAll, h]
  · intro h
    simp [safeRemoveAll, h]

/-- Witness for the amended C3: a shape-conforming path is deleted. -/
theorem C3_guard_shapes_witness :
    safeRemoveAll
        ["var", "ab-t", "0123456789012345678901234567890123456789"] =
      ([FsAction.removeAll
          ["var", "ab-t", "0123456789012345678901234567890123456789"]],
        none) :=
  (C3_guard_shapes
    ["var", "ab-t", "0123456789012345678901234567890123456789"]).2.1
    (by decide)

/-- Claim C4: per-item trim step. If the item's `info` is missing, the
whole item directory is removed via the safe-delete guard; if `info`
exists but is malformed, nothing is deleted and the parse error is
surfaced; if `info` parses and the record's age exceeds `maxAge`, the
`info` file is removed first and then the item directory via the guard;
otherwise nothing is deleted and no error is returned. -/
theorem C4_delete_hash (maxAge now : Nat) (lockfile : Path) :
    (DeleteHash maxAge now lockfile ReadResult.notExist =
      safeRemoveAll (goDir lockfile)) ∧
    (∀ buf e, str2item buf = Except.error e →
      DeleteHash maxAge now lockfile (ReadResult.content buf) =
        ([], some e)) ∧
    (∀ buf obj, str2item buf = Except.ok obj → ageNs now obj > maxAge →
      DeleteHash maxAge now lockfile (ReadResult.content buf) =
        (FsAction.removeFile (lockfile2datafile lockfile) ::
            (safeRemoveAll (goDir lockfile)).1,
          (safeRemoveAll (goDir lockfile)).2)) ∧
    (∀ buf obj, str2item buf = Except.ok obj → ageNs now obj ≤ maxAge →
      DeleteHash maxAge now lockfile (ReadResult.content buf) =
        ([], none)) := by
  refine ⟨rfl, ?_, ?_, ?_⟩
  · intro buf e hparse
    simp [DeleteHash, hparse]
  · intro buf obj hparse hage
    simp [DeleteHash, hparse, hage]
  · intro buf obj hparse hage
    simp [DeleteHash, hparse]
    omega

/-- Witness for C4 on a concrete expired item. -/
theorem C4_delete_hash_witness :
    DeleteHash 10 1000000000000
        ["data", "aa-t", "0123456789012345678901234567890123456789",
          "lockfile"]
        (ReadResult.content ("/x 0 0\n".toList)) =
      ([FsAction.removeFile
          ["data", "aa-t", "0123456789012345678901234567890123456789",
            "info"],
        FsAction.removeAll
          ["data", "aa-t", "0123456789012345678901234567890123456789"]],
        none) := by
  have h := (C4_delete_hash 10 1000000000000
    ["data", "aa-t", "0123456789012345678901234567890123456789",
      "lockfile"]).2.2.1 ("/x 0 0\n".toList) ⟨"/x".toList, 0, 0⟩
    rfl (by decide)
  exact h.trans (by decide)

/-- Claim C5, counterexample: on a concrete hit whose refresh commit
fails, the error is reported but `Lookup2` returns the placeholder
`/invalid/outdir/2`, not the valid objdir `/x` parsed from the record —
refuting the claim that the returned objdir is not invalidated. -/
theorem C5_counterexample :
    (Lookup2 1000 ["d"] ("/x 5 6\n".toList)
        ⟨"01234567", true, none, some "disk full", 5⟩).err ≠ none ∧
      (Lookup2 1000 ["d"] ("/x 5 6\n".toList)
          ⟨"01234567", true, none, some "disk full", 5⟩).ret ≠
        "/x".toList := by
  decide

/-- Claim C5 as amended: when the rewrite of the record fails on the hit
path, `Lookup2` reports the wrapped refresh error and returns the
placeholder `/invalid/outdir/2` instead of the objdir parsed from the
record; the stored bytes are unchanged and no deletion happens. -/
theorem C5_refresh_failure (maxAge : Nat) (itemDir : Path)
    (oldInfo : List Char) (env : LookupEnv) (obj : Item) (e : String)
    (hne : oldInfo ≠ []) (hparse : str2item oldInfo = Except.ok obj)
    (hw : env.writeErr = some e) :
    Lookup2 maxAge itemDir oldInfo env =
      ⟨invalidOutdir2, some ("cache refresh failed - " ++ e), oldInfo,
        0, []⟩ := by
  simp [Lookup2, hne, hparse, hw]

/-- Witness for the amended C5 at a concrete record and failing write. -/
theorem C5_refresh_failure_witness :
    Lookup2 1000 ["d"] ("/x 5 6\n".toList)
        ⟨"01234567", true, none, some "disk full", 5⟩ =
      ⟨invalidOutdir2, some ("cache refresh failed - " ++ "disk full"),
        "/x 5 6\n".toList, 0, []⟩ :=
  C5_refresh_failure 1000 ["d"] ("/x 5 6\n".toList)
    ⟨"01234567", true, none, some "disk full", 5⟩ ⟨"/x".toList, 5, 6⟩
    "disk full" (by decide) rfl rfl

/-- Claim C6: on the hit path with a well-formed record and a successful
rewrite, the stored record's timestamp is set to the current instant
exactly when the record's age exceeds `maxAge/10`; when the age is at
most `maxAge/10` the record parses back unchanged after the lookup. -/
theorem C6_refresh_policy (maxAge : Nat) (itemDir : Path)
    (oldInfo : List Char) (env : LookupEnv) (obj : Item)
    (hne : oldInfo ≠ []) (hparse : str2item oldInfo = Except.ok obj)
    (hobj : obj.objdir ≠ []) (hsp : ∀ c ∈ obj.objdir, isSpaceGo c = false)
    (hw : env.writeErr = none) (hnow : env.now < 2 ^ 63)
    (hlo : -(2 ^ 63) ≤ obj.refreshTime) (hhi : obj.refreshTime < 2 ^ 63)
    (hlo2 : -(2 ^ 63) ≤ obj.refreshTimeNano)
    (hhi2 : obj.refreshTimeNano < 2 ^ 63) :
    (ageNs env.now obj > maxAge / 10 →
      str2item (Lookup2 maxAge itemDir oldInfo env).info =
        Except.ok (refreshItem env.now obj.objdir)) ∧
    (ageNs env.now obj ≤ maxAge / 10 →
      str2item (Lookup2 maxAge itemDir oldInfo env).info =
        Except.ok obj) := by
  have hinfo : (Lookup2 maxAge itemDir oldInfo env).info =
      writeOverlay (item2str (if ageNs env.now obj > maxAge / 10 then
        refreshItem env.now obj.objdir else obj)) oldInfo := by
    rw [Lookup2_hit maxAge itemDir oldInfo env obj hne hparse hw]
  constructor
  · intro hage
    rw [hinfo, if_pos hage]
    exact str2item_refreshItem env.now obj.objdir _ hobj hsp hnow
  · intro hage
    rw [hinfo, if_neg (by omega)]
    exact str2item_item2str obj _ hobj hsp hlo hhi hlo2 hhi2

/-- Witness for C6 on a concrete fresh record (age at most `maxAge/10`,
timestamp unchanged). -/
theorem C6_refresh_policy_witness :
    ageNs 5000000006 ⟨"/x".toList, 5, 6⟩ ≤ 1000000000 / 10 ∧
      str2item (Lookup2 1000000000 ["d"] ("/x 5 6\n".toList)
          ⟨"01234567", true, none, none, 5000000006⟩).info =
        Except.ok ⟨"/x".toList, 5, 6⟩ := by
  refine ⟨by decide, ?_⟩
  exact (C6_refresh_policy 1000000000 ["d"] ("/x 5 6\n".toList)
    ⟨"01234567", true, none, none, 5000000006⟩ ⟨"/x".toList, 5, 6⟩
    (by decide) rfl (by decide) (by decide) rfl (by decide)
    (by decide) (by decide) (by decide) (by decide)).2 (by decide)

/-- Claim C8: error precedence in the lock primitive and the guarded
update. A body error always wins in `Lockedfile` (a failed unlock is
surfaced only when the body succeeded, a failed close only when body and
unlock succeeded), failures to open or lock are always reported, and in
`updateDatafile` the close error is reported only when the update callback
succeeded. -/
theorem C8_error_precedence (lf df : List Char) (e u c oe le ce : String)
    (hlf : lf.any (fun ch => ch.toNat == 0) = false)
    (hdf : df.any (fun ch => ch.toNat == 0) = false) :
    (∀ ue cl, Lockedfile lf none none (some e) ue cl = some e) ∧
    (∀ cl, Lockedfile lf none none none (some u) cl =
      some ("unlock failed: " ++ u)) ∧
    (Lockedfile lf none none none none (some c) =
      some ("close failed: " ++ c)) ∧
    (Lockedfile lf none none none none none = none) ∧
    (∀ l b un cl, Lockedfile lf (some oe) l b un cl =
      some ("failed to open/create file - " ++ oe)) ∧
    (∀ b un cl, Lockedfile lf none (some le) b un cl =
      some ("failed to lock file - " ++ le)) ∧
    (∀ cl, updateDatafile df none none (some e) cl = some e) ∧
    (updateDatafile df none none none (some ce) = some ce) ∧
    (updateDatafile df none none none none = none) := by
  refine ⟨?_, ?_, ?_, ?_, ?_, ?_, ?_, ?_, ?_⟩ <;>
    simp [Lockedfile, updateDatafile, hlf, hdf]

/-- Witness for C8 at concrete paths and errors. -/
theorem C8_error_precedence_witness :
    Lockedfile ("/r/l".toList) none none (some "body fail") (some "u")
        (some "c") = some "body fail" ∧
      updateDatafile ("/r/info".toList) none none none (some "close fail") =
        some "close fail" := by
  have h := C8_error_precedence ("/r/l".toList) ("/r/info".toList)
    "body fail" "u" "c" "o" "k" "close fail" (by decide) (by decide)
  exact ⟨h.1 (some "u") (some "c"), h.2.2.2.2.2.2.2.1⟩

/-- Claim C9: `NewConfig` rejects any `maxAge` below ten seconds, the
internal constructor `newConfig` permits down to ten milliseconds (and
rejects below that), and when `config.json` already exists with a parsable
persisted `maxAge` of at least ten seconds, that persisted value replaces
the caller's argument in the returned config, whatever (admissible) value
the caller passed. -/
theorem C9_config_max_age (parse : List Char → Except String Nat)
    (dir : List Char) (callerMaxAge : Nat) (old : List Char)
    (writeOk : Bool) (d0 : Nat)
    (hdir1 : dir.any (fun ch => ch.toNat == 0) = false)
    (hdir2 : dir.head? = some '/') :
    (callerMaxAge < tenSeconds →
      NewConfig parse dir callerMaxAge old writeOk =
        Except.error "maxAge minimum is 10 seconds") ∧
    (callerMaxAge < tenMilliseconds →
      newConfig parse dir callerMaxAge old writeOk =
        Except.error "internal maxAge minimum is 10 milliseconds") ∧
    (tenMilliseconds ≤ callerMaxAge →
      newConfig parse dir callerMaxAge [] true =
        Except.ok ⟨callerMaxAge⟩) ∧
    (tenSeconds ≤ callerMaxAge → old ≠ [] → parse old = Except.ok d0 →
      tenSeconds ≤ d0 →
      NewConfig parse dir callerMaxAge old writeOk = Except.ok ⟨d0⟩) := by
  refine ⟨?_, ?_, ?_, ?_⟩
  · intro h
    simp [NewConfig, h]
  · intro h
    simp [newConfig, h]
  · intro h
    have h1 : ¬ callerMaxAge < tenMilliseconds := by omega
    simp [newConfig, newConfigUpdate, hdir1, hdir2, h1]
    rfl
  · intro h hold hparse hd0
    have h10 : ¬ callerMaxAge < tenSeconds := by omega
    have h10m : ¬ callerMaxAge < tenMilliseconds := by
      simp only [tenSeconds, tenMilliseconds, nsPerSec] at h ⊢
      omega
    have hd0b : ¬ d0 < tenSeconds := by omega
    simp [NewConfig, newConfig, newConfigUpdate, h10, h10m, hdir1, hdir2,
      hold, hparse, hd0b]
    rfl

/-- Witness for C9: a persisted 20-second `maxAge` overrides a caller's
15-second argument. -/
theorem C9_config_max_age_witness :
    NewConfig (fun _ => Except.ok (20 * nsPerSec)) ("/r".toList)
        (15 * nsPerSec) ("x".toList) true =
      Except.ok ⟨20 * nsPerSec⟩ :=
  (C9_config_max_age (fun _ => Except.ok (20 * nsPerSec)) ("/r".toList)
    (15 * nsPerSec) ("x".toList) true (20 * nsPerSec) (by decide)
    (by decide)).2.2.2 (by decide) (by decide) rfl (by decide)

/-- Claim C10: if `trim.txt` is missing, unreadable or unparsable,
`trimPending` returns true, and `DeleteExpiredItems` then takes the
exclusive trim lock to re-check instead of silently skipping; the trim is
skipped without any lock exactly when `trim.txt` parses and the record's
age is at most `maxAge/10`. -/
theorem C10_trim_pending (maxAge now now2 : Nat) (read2 : ReadResult)
    (writeOk : Bool) :
    (trimPending maxAge now ReadResult.notExist = true) ∧
    (∀ e, trimPending maxAge now (ReadResult.readError e) = true) ∧
    (∀ buf e, str2item buf = Except.error e →
      trimPending maxAge now (ReadResult.content buf) = true) ∧
    (∀ read1, trimPending maxAge now read1 = true →
      (DeleteExpiredItems maxAge now read1 now2 read2 writeOk).tookTrimLock =
        true) ∧
    (∀ read1,
      (DeleteExpiredItems maxAge now read1 now2 read2 writeOk).tookTrimLock =
          false ↔
        ∃ buf item, read1 = ReadResult.content buf ∧
          str2item buf = Except.ok item ∧
          ageNs now item ≤ maxAge / 10) := by
  refine ⟨rfl, fun e => rfl, ?_, ?_, ?_⟩
  · intro buf e hparse
    simp [trimPending, hparse]
  · intro read1 hpend
    simp only [DeleteExpiredItems, hpend, Bool.not_true, Bool.false_eq_true,
      if_false]
    cases updateTrimRefreshTime maxAge true now2 read2 writeOk with
    | mk fst snd =>
      cases snd <;> rfl
  · intro read1
    constructor
    · intro h
      by_cases hpend : trimPending maxAge now read1 = true
      · exfalso
        simp only [DeleteExpiredItems, hpend, Bool.not_true,
          Bool.false_eq_true, if_false] at h
        rcases hr : updateTrimRefreshTime maxAge true now2 read2 writeOk
          with ⟨fst, snd⟩
        rw [hr] at h
        cases snd <;> simp at h
      · cases read1 with
        | notExist => exact absurd rfl hpend
        | readError e => exact absurd rfl hpend
        | content buf =>
          cases hs : str2item buf with
          | error e =>
            exact absurd (by simp [trimPending, hs]) hpend
          | ok item =>
            refine ⟨buf, item, rfl, hs, ?_⟩
            by_contra hage
            exact hpend (by simp [trimPending, hs]; omega)
    · rintro ⟨buf, item, rfl, hs, hage⟩
      have hpend : trimPending maxAge now (ReadResult.content buf) = false := by
        simp [trimPending, hs]
        omega
      simp [DeleteExpiredItems, hpend]

/-- Witness for C10: a missing `trim.txt` forces the locked re-check. -/
theorem C10_trim_pending_witness :
    (DeleteExpiredItems 1000 5 ReadResult.notExist 6 ReadResult.notExist
        true).tookTrimLock = true :=
  (C10_trim_pending 1000 5 6 ReadResult.notExist true).2.2.2.1
    ReadResult.notExist rfl

end GorunCache

